import Mathlib

/-!
Shallow embedding of the spatial load disaggregation engine of
`code/lib/generate_intermediate_files.py`, centred on the function
`generate_load_timeseries` (lines 165-356).  Tables are embedded as
functions, hourly series as functions from hour indices to rationals,
and the pandas float values as exact rationals.  The development states
and proves the conservation, normalization, fallback, caching and
parsing properties of that function.
-/

/-- Context of `generate_load_timeseries`: the input tables and
parameters the function reads.  `statCountry` is the zonal-statistics
table of the countries (`stats_countries`): for each country it holds a
pixel count per land-use category and, under the key `"RES"`, the
population zonal count. -/
structure LoadCtx where
  configSectors : Finset String
  assumptionCols : Finset String
  landuseTypes : List String
  rawCoef : String → String → ℚ
  statCountry : String → String → ℚ
  shareTable : String → Option (String → ℚ)
  defaultShares : String → ℚ
  profiles : String → ℕ → ℚ
  loadCountries : String → ℕ → ℚ

/-- Sectors shared between the assumptions table and the configured
sector list (line 185 of the source). -/
def sharedSectors (ctx : LoadCtx) : Finset String :=
  ctx.assumptionCols ∩ ctx.configSectors

/-- Shared sectors together with the synthetic residential sector
(line 187). -/
def includedSectors (ctx : LoadCtx) : Finset String :=
  insert "RES" (sharedSectors ctx)

/-- Condition under which line 188 emits the UserWarning. -/
def warnsMissing (ctx : LoadCtx) : Prop :=
  includedSectors ctx ≠ ctx.configSectors

/-- The sector set printed by the warning of line 190. -/
def missingSectors (ctx : LoadCtx) : Finset String :=
  ctx.configSectors \ includedSectors ctx

/-- Column sum of the raw assumptions table for sector `s` (line 197,
the sum over axis 0). -/
def luColSum (ctx : LoadCtx) (s : String) : ℚ :=
  (ctx.landuseTypes.map fun lu => ctx.rawCoef lu s).sum

/-- Normalized sector-landuse weight matrix (line 197): the transposed
assumptions table with each sector row divided by that sector's column
sum. -/
def sector_lu (ctx : LoadCtx) (s lu : String) : ℚ :=
  ctx.rawCoef lu s / luColSum ctx s

/-- Weighted pixel count of sector `s` in country `c` (line 220): the
dot product of the country's land-use pixel counts with the sector's
normalized weight vector. -/
def statSector (ctx : LoadCtx) (c s : String) : ℚ :=
  (ctx.landuseTypes.map fun lu => ctx.statCountry c lu * sector_lu ctx s lu).sum

/-- Sector share lookup with fallback (lines 242-245): the try block
reads the country's row of the share table, the except block on KeyError
substitutes the default country's row. -/
def secShare (ctx : LoadCtx) (c s : String) : ℚ :=
  match ctx.shareTable c with
  | some row => row s
  | none => ctx.defaultShares s

/-- Raw sectoral table of lines 240-245: normalized profile times sector
share, before renormalization. -/
def df_sectors_raw (ctx : LoadCtx) (c s : String) (h : ℕ) : ℚ :=
  ctx.profiles s h * secShare ctx c s

/-- Per-country hourly scaling factor (line 249): groupby sum over all
configured sector columns of the raw table. -/
def df_scaling (ctx : LoadCtx) (c : String) (h : ℕ) : ℚ :=
  ∑ s ∈ ctx.configSectors, df_sectors_raw ctx c s h

/-- Final sectoral table (lines 250-252).  The loop renormalizes exactly
the columns in sec plus RES, that is `includedSectors`; any other
configured column keeps its raw value.  As in the source, the synthetic
sector RES is taken not to be a column of the assumptions table
(otherwise the source loop would renormalize it twice). -/
def df_sectors (ctx : LoadCtx) (c s : String) (h : ℕ) : ℚ :=
  if s ∈ includedSectors ctx then
    df_sectors_raw ctx c s h / df_scaling ctx c h * ctx.loadCountries c h
  else df_sectors_raw ctx c s h

/-- Hourly load per land-use unit table (lines 262-271): the RES row of
country `c` is its residential sectoral load divided by its population
zonal count; the row of a land-use type accumulates, over the shared
sectors, the sector's weight for that type times the sectoral load
divided by the sector's weighted pixel count. -/
def load_landuse (ctx : LoadCtx) (c col : String) (h : ℕ) : ℚ :=
  if col = "RES" then df_sectors ctx c "RES" h / ctx.statCountry c "RES"
  else ∑ s ∈ sharedSectors ctx,
    sector_lu ctx s col * df_sectors ctx c s h / statSector ctx c s

/-- Division as performed by pandas on float data: dividing by zero
yields an undefined numeric value (IEEE infinity or NaN), modelled as
`none`. -/
def fdiv (x y : ℚ) : Option ℚ :=
  if y = 0 then none else some (x / y)

/-- Float addition with propagation of undefined values. -/
def fadd : Option ℚ → Option ℚ → Option ℚ
  | some a, some b => some (a + b)
  | _, _ => none

/-- The computation of lines 267-271 with the float semantics of its
divisions made explicit: no branch of the source guards the divisor, so
a zero zonal count flows straight into the division. -/
def load_landuse_fp (ctx : LoadCtx) (c col : String) (h : ℕ) : Option ℚ :=
  if col = "RES" then fdiv (df_sectors ctx c "RES" h) (ctx.statCountry c "RES")
  else (((sharedSectors ctx).sort (· ≤ ·)).map fun s =>
    fdiv (sector_lu ctx s col * df_sectors ctx c s h) (statSector ctx c s)).foldr fadd (some 0)

/-- Python single-character string split, the semantics of splitting on
an underscore in line 314: empty tokens are preserved and the empty
string yields one empty token. -/
def splitOnChar : List Char → List (List Char)
  | [] => [[]]
  | c :: cs =>
    if c = '_' then [] :: splitOnChar cs
    else
      match splitOnChar cs with
      | [] => [[c]]
      | t :: ts => (c :: t) :: ts

/-- Tokens of a country-part identifier, the split of line 314. -/
def pySplit (i : String) : List String :=
  (splitOnChar i.data).map fun t => String.mk t

/-- Row filter of lines 310-316 for one identifier: a well-formed
identifier splits into subregion and country; the row is kept when the
country is known, dropped otherwise. -/
def keepRow (known : Finset String) (i : String) : Option (String × String × String) :=
  match pySplit i with
  | [r, c] => if c ∈ known then some (i, r, c) else none
  | _ => none

/-- The loop of lines 313-316 over the index of the country-part
statistics table: each identifier is split into the attributes Region
and Country; a split of length other than two makes the pandas
assignment raise, aborting the stage (modelled as an error), and rows
whose country is not among the known countries are dropped. -/
def parseParts (known : Finset String) : List String → Except String (List (String × String × String))
  | [] => Except.ok []
  | i :: rest =>
    match pySplit i with
    | [r, c] =>
      match parseParts known rest with
      | Except.ok l => Except.ok (if c ∈ known then (i, r, c) :: l else l)
      | Except.error e => Except.error e
    | _ => Except.error i

/-- The loop of lines 313-316 paired with the list of warning or log
messages it emits.  The loop body contains no warn, print or logging
call whatsoever (the only warning in `generate_load_timeseries` is the
missing-sector warning of line 189), so no branch appends a message:
in particular the branch that drops a row whose country is unknown
emits nothing. -/
def parsePartsLog (known : Finset String) :
    List String → Except String (List (String × String × String) × List String)
  | [] => Except.ok ([], [])
  | i :: rest =>
    match pySplit i with
    | [r, c] =>
      match parsePartsLog known rest with
      | Except.ok (l, w) =>
        Except.ok (if c ∈ known then ((i, r, c) :: l, w) else (l, w))
      | Except.error e => Except.error e
    | _ => Except.error i

/-- Hourly load of one country part (lines 326-338): its population
zonal count times the country's residential per-unit series, plus, for
each land-use type, its pixel count times the country's per-unit series
for that type. -/
def load_country_part (ctx : LoadCtx) (statSub : String → String → ℚ)
    (cp c : String) (h : ℕ) : ℚ :=
  statSub cp "RES" * load_landuse ctx c "RES" h +
    (ctx.landuseTypes.map fun lu => statSub cp lu * load_landuse ctx c lu h).sum

/-- Grouping key of line 341, the pair Region, Country of a parsed
country-part row. -/
def groupKey (p : String × String × String) : String × String :=
  (p.2.1, p.2.2)

/-- Aggregation of lines 341-343: group the country parts by Region and
Country and sum, then group by Region and sum; this is the value of the
final table at subregion `r` and hour `h`. -/
def load_regions (ctx : LoadCtx) (statSub : String → String → ℚ)
    (parts : List (String × String × String)) (r : String) (h : ℕ) : ℚ :=
  (((parts.map groupKey).dedup.filter fun k => k.1 = r).map fun k =>
    ((parts.filter fun p => groupKey p = k).map fun p =>
      load_country_part ctx statSub p.1 p.2.2 h).sum).sum

/-- Distinct subregion identifiers of the parsed country parts. -/
def partRegions (parts : List (String × String × String)) : List String :=
  (parts.map fun p => p.2.1).dedup

/-- Distinct country identifiers of the parsed country parts. -/
def partCountries (parts : List (String × String × String)) : List String :=
  (parts.map fun p => p.2.2).dedup

/-- File-existence caching pattern of lines 210-216 and 296-308: when
the output file exists its table is loaded, otherwise the table is
computed and written.  The cache is the content of the file (CSV
round-tripping is modelled as exact); the result is the table used
downstream paired with the file state after the stage. -/
def getOrCompute {α : Type} (cache : Option α) (compute : α) : α × Option α :=
  match cache with
  | some t => (t, some t)
  | none => (compute, some compute)

/-- Example zonal-statistics row used by the concrete witnesses: one
land-use type L1 with two pixels and a population count of four. -/
def exStatC : String → String → ℚ := fun _ col =>
  if col = "RES" then 4 else if col = "L1" then 2 else 0

/-- Example sector-share table containing only country A. -/
def exShareTable : String → Option (String → ℚ) := fun c =>
  if c = "A" then some (fun s => if s = "IND" then 3 else 1) else none

/-- Example context with one industrial sector, one land-use type and
one country A of constant total load ten. -/
def exCtx : LoadCtx where
  configSectors := {"IND", "RES"}
  assumptionCols := {"IND"}
  landuseTypes := ["L1"]
  rawCoef := fun _ _ => 1
  statCountry := exStatC
  shareTable := exShareTable
  defaultShares := fun _ => 1
  profiles := fun _ _ => 1
  loadCountries := fun _ _ => 10

/-- Example context whose configured sector list contains a sector AGR
that the assumptions table lacks. -/
def exCtx7 : LoadCtx where
  configSectors := {"IND", "AGR", "RES"}
  assumptionCols := {"IND"}
  landuseTypes := ["L1"]
  rawCoef := fun _ _ => 1
  statCountry := exStatC
  shareTable := exShareTable
  defaultShares := fun _ => 1
  profiles := fun _ _ => 1
  loadCountries := fun _ _ => 10

/-- Example context of a degenerate country whose zonal-statistics row
is all zeros (a region covered by no raster pixel). -/
def exCtxZero : LoadCtx where
  configSectors := {"IND", "RES"}
  assumptionCols := {"IND"}
  landuseTypes := ["L1"]
  rawCoef := fun _ _ => 1
  statCountry := fun _ _ => 0
  shareTable := exShareTable
  defaultShares := fun _ => 1
  profiles := fun _ _ => 1
  loadCountries := fun _ _ => 10

/-- Example parsed country-part table: one part covering all of
country A inside subregion R1. -/
def exParts : List (String × String × String) := [("R1_A", "R1", "A")]

/-- Example known-country set for the parsing stage. -/
def exKnown : Finset String := {"A"}

/-- Example country-part identifiers: one with a known country, one
with an unknown country X. -/
def exIds : List String := ["R1_A", "R2_X"]

/-- Sum of a pointwise sum of two mapped lists splits into two sums. -/
theorem lsum_map_add {α : Type} (l : List α) (f g : α → ℚ) :
    (l.map fun x => f x + g x).sum = (l.map f).sum + (l.map g).sum := by
  induction l with
  | nil => simp
  | cons a t ih => simp only [List.map_cons, List.sum_cons, ih]; ring

/-- A constant right factor moves out of a mapped list sum. -/
theorem lsum_map_mul_right {α : Type} (l : List α) (f : α → ℚ) (c : ℚ) :
    (l.map fun x => f x * c).sum = (l.map f).sum * c := by
  induction l with
  | nil => simp
  | cons a t ih => simp only [List.map_cons, List.sum_cons, ih]; ring

/-- Pointwise equal functions give equal list maps. -/
theorem lmap_congr {α β : Type} (l : List α) (f g : α → β)
    (hfg : ∀ a ∈ l, f a = g a) : l.map f = l.map g := by
  induction l with
  | nil => rfl
  | cons a t ih =>
    simp only [List.map_cons]
    rw [hfg a (List.mem_cons_self a t), ih fun x hx => hfg x (List.mem_cons_of_mem a hx)]

/-- A list sum of Finset sums commutes to a Finset sum of list sums. -/
theorem lsum_finset_swap {α β : Type} (l : List α) (t : Finset β) (F : α → β → ℚ) :
    (l.map fun a => ∑ s ∈ t, F a s).sum = ∑ s ∈ t, (l.map fun a => F a s).sum := by
  induction l with
  | nil => simp
  | cons a tl ih =>
    simp only [List.map_cons, List.sum_cons, ih]
    rw [← Finset.sum_add_distrib]

/-- Two nested list sums commute. -/
theorem lsum_swap {α β : Type} (l1 : List α) (l2 : List β) (F : α → β → ℚ) :
    (l1.map fun a => (l2.map fun b => F a b).sum).sum
      = (l2.map fun b => (l1.map fun a => F a b).sum).sum := by
  induction l1 with
  | nil => simp
  | cons a t ih =>
    simp only [List.map_cons, List.sum_cons, ih]
    rw [← lsum_map_add]

/-- Summing over a filter by a disjunction of disjoint predicates splits
into the two filtered sums. -/
theorem lsum_filter_disjoint {α : Type} (l : List α) (p q : α → Bool) (f : α → ℚ)
    (hdisj : ∀ x, ¬(p x = true ∧ q x = true)) :
    ((l.filter fun x => p x || q x).map f).sum
      = ((l.filter p).map f).sum + ((l.filter q).map f).sum := by
  induction l with
  | nil => simp
  | cons a t ih =>
    by_cases hp : p a = true
    · have hq : q a = false := by
        cases hqa : q a with
        | false => rfl
        | true => exact absurd ⟨hp, hqa⟩ (hdisj a)
      simp only [List.filter_cons, hp, hq, Bool.true_or, if_true, if_false,
        Bool.false_eq_true, List.map_cons, List.sum_cons, ih]
      ring
    · have hp' : p a = false := by
        cases hpa : p a with
        | false => rfl
        | true => exact absurd hpa hp
      by_cases hq : q a = true
      · simp only [List.filter_cons, hp', hq, Bool.false_or, if_true, if_false,
          Bool.false_eq_true, List.map_cons, List.sum_cons, ih]
        ring
      · have hq' : q a = false := by
          cases hqa : q a with
          | false => rfl
          | true => exact absurd hqa hq
        simp only [List.filter_cons, hp', hq', Bool.false_or, if_false,
          Bool.false_eq_true, ih]

/-- Summing the fiber sums of a list over a duplicate-free key list
equals the sum over the elements whose key lies in that list. -/
theorem lsum_group_by_keys {α κ : Type} [DecidableEq κ] (l : List α) (g : α → κ) (f : α → ℚ) :
    ∀ keys : List κ, keys.Nodup →
      (keys.map fun k => ((l.filter fun x => g x = k).map f).sum).sum
        = ((l.filter fun x => g x ∈ keys).map f).sum := by
  intro keys
  induction keys with
  | nil =>
    intro _
    have : (l.filter fun x => decide (g x ∈ ([] : List κ))) = [] := by
      apply List.filter_eq_nil_iff.mpr
      intro a _
      simp
    simp [this]
  | cons k ks ih =>
    intro hnd
    have hk : k ∉ ks := (List.nodup_cons.mp hnd).1
    have hks : ks.Nodup := (List.nodup_cons.mp hnd).2
    have hsplit : (l.filter fun x => decide (g x ∈ k :: ks))
        = l.filter fun x => (decide (g x = k) || decide (g x ∈ ks)) := by
      apply List.filter_congr
      intro x _
      simp [List.mem_cons]
    simp only [List.map_cons, List.sum_cons, ih hks, hsplit]
    rw [lsum_filter_disjoint l _ _ f]
    intro x hx
    rcases hx with ⟨h1, h2⟩
    have e1 : g x = k := of_decide_eq_true h1
    have e2 : g x ∈ ks := of_decide_eq_true h2
    exact hk (e1 ▸ e2)

/-- Summing the fiber sums over all distinct keys of a list recovers the
plain sum over the list. -/
theorem lsum_dedup_fibers {α κ : Type} [DecidableEq κ] (l : List α) (g : α → κ) (f : α → ℚ) :
    ((l.map g).dedup.map fun k => ((l.filter fun x => g x = k).map f).sum).sum
      = (l.map f).sum := by
  rw [lsum_group_by_keys l g f _ (List.nodup_dedup _)]
  have : (l.filter fun x => decide (g x ∈ (l.map g).dedup)) = l := by
    apply List.filter_eq_self.mpr
    intro a ha
    simp only [decide_eq_true_eq, List.mem_dedup]
    exact List.mem_map_of_mem g ha
  rw [this]

/-- Summing the fiber sums over the distinct keys selected by a
predicate equals the sum over the elements whose key satisfies it. -/
theorem lsum_dedup_fibers_filter {α κ : Type} [DecidableEq κ] (l : List α) (g : α → κ)
    (P : κ → Bool) (f : α → ℚ) :
    (((l.map g).dedup.filter P).map fun k => ((l.filter fun x => g x = k).map f).sum).sum
      = ((l.filter fun x => P (g x)).map f).sum := by
  rw [lsum_group_by_keys l g f _ ((List.nodup_dedup _).filter P)]
  have : (l.filter fun x => decide (g x ∈ (l.map g).dedup.filter P))
      = l.filter fun x => P (g x) := by
    apply List.filter_congr
    intro x hx
    simp only [decide_eq_true_eq, List.mem_filter, List.mem_dedup]
    have : g x ∈ l.map g := List.mem_map_of_mem g hx
    by_cases hP : P (g x) = true
    · simp [this, hP]
    · simp [hP]
  rw [this]

/-- The two consecutive groupby sums of lines 341-343 amount to one sum
over the country parts sharing the subregion identifier. -/
theorem load_regions_eq_filter_sum (ctx : LoadCtx) (statSub : String → String → ℚ)
    (parts : List (String × String × String)) (r : String) (h : ℕ) :
    load_regions ctx statSub parts r h
      = ((parts.filter fun p => p.2.1 = r).map fun p =>
          load_country_part ctx statSub p.1 p.2.2 h).sum := by
  unfold load_regions
  rw [lsum_dedup_fibers_filter parts groupKey (fun k => decide (k.1 = r))
    (fun p => load_country_part ctx statSub p.1 p.2.2 h)]
  rfl

/-- Renormalization identity of lines 247-252: when every configured
sector column is renormalized and the per-hour scaling sum is nonzero,
the final sectoral values of a country sum to its total hourly load. -/
theorem sum_df_sectors_eq_load (ctx : LoadCtx) (c : String) (h : ℕ)
    (hsub : ctx.configSectors ⊆ includedSectors ctx)
    (hscale : df_scaling ctx c h ≠ 0) :
    ∑ s ∈ ctx.configSectors, df_sectors ctx c s h = ctx.loadCountries c h := by
  have hcongr : ∀ s ∈ ctx.configSectors, df_sectors ctx c s h
      = df_sectors_raw ctx c s h / df_scaling ctx c h * ctx.loadCountries c h := by
    intro s hs
    unfold df_sectors
    rw [if_pos (hsub hs)]
  rw [Finset.sum_congr rfl hcongr, ← Finset.sum_mul, ← Finset.sum_div]
  have hdef : ∑ s ∈ ctx.configSectors, df_sectors_raw ctx c s h = df_scaling ctx c h := rfl
  rw [hdef, div_self hscale, one_mul]

/-- Closed-system identity for one country: when the zonal counts of its
country parts add up to the country's zonal counts and all denominators
are nonzero, the country parts' hourly loads of lines 326-338 add up to
the country's original total hourly load. -/
theorem country_part_sum_eq_load (ctx : LoadCtx) (statSub : String → String → ℚ)
    (parts : List (String × String × String)) (c : String) (h : ℕ)
    (hresA : "RES" ∉ ctx.assumptionCols)
    (hresL : "RES" ∉ ctx.landuseTypes)
    (hconf : ctx.configSectors = includedSectors ctx)
    (hscale : df_scaling ctx c h ≠ 0)
    (hstatS : ∀ s ∈ sharedSectors ctx, statSector ctx c s ≠ 0)
    (hstatR : ctx.statCountry c "RES" ≠ 0)
    (hcoverR : ((parts.filter fun p => p.2.2 = c).map fun p => statSub p.1 "RES").sum
        = ctx.statCountry c "RES")
    (hcoverL : ∀ lu ∈ ctx.landuseTypes,
        ((parts.filter fun p => p.2.2 = c).map fun p => statSub p.1 lu).sum
          = ctx.statCountry c lu) :
    ((parts.filter fun p => p.2.2 = c).map fun p =>
        load_country_part ctx statSub p.1 p.2.2 h).sum = ctx.loadCountries c h := by
  set L := parts.filter fun p => p.2.2 = c with hL
  have hmem : ∀ p ∈ L, p.2.2 = c := by
    intro p hp
    rw [hL] at hp
    exact of_decide_eq_true (List.mem_filter.mp hp).2
  have h1 : (L.map fun p => load_country_part ctx statSub p.1 p.2.2 h)
      = L.map fun p => load_country_part ctx statSub p.1 c h :=
    lmap_congr L _ _ fun p hp => by rw [hmem p hp]
  rw [h1]
  unfold load_country_part
  rw [lsum_map_add L (fun p => statSub p.1 "RES" * load_landuse ctx c "RES" h)
    (fun p => (ctx.landuseTypes.map fun lu => statSub p.1 lu * load_landuse ctx c lu h).sum)]
  rw [lsum_map_mul_right L (fun p => statSub p.1 "RES") (load_landuse ctx c "RES" h)]
  rw [hcoverR]
  rw [lsum_swap L ctx.landuseTypes (fun p lu => statSub p.1 lu * load_landuse ctx c lu h)]
  have h2 : (ctx.landuseTypes.map fun lu =>
      (L.map fun p => statSub p.1 lu * load_landuse ctx c lu h).sum)
      = ctx.landuseTypes.map fun lu => ctx.statCountry c lu * load_landuse ctx c lu h := by
    apply lmap_congr
    intro lu hlu
    rw [lsum_map_mul_right L (fun p => statSub p.1 lu) (load_landuse ctx c lu h), hcoverL lu hlu]
  rw [h2]
  have hRES : ctx.statCountry c "RES" * load_landuse ctx c "RES" h = df_sectors ctx c "RES" h := by
    unfold load_landuse
    rw [if_pos rfl, mul_comm]
    exact div_mul_cancel₀ _ hstatR
  have hLU : (ctx.landuseTypes.map fun lu => ctx.statCountry c lu * load_landuse ctx c lu h).sum
      = ∑ s ∈ sharedSectors ctx, df_sectors ctx c s h := by
    have e1 : (ctx.landuseTypes.map fun lu => ctx.statCountry c lu * load_landuse ctx c lu h)
        = ctx.landuseTypes.map fun lu => ∑ s ∈ sharedSectors ctx,
            ctx.statCountry c lu * (sector_lu ctx s lu * df_sectors ctx c s h / statSector ctx c s) := by
      apply lmap_congr
      intro lu hlu
      have hne : ¬(lu = "RES") := fun e => hresL (e ▸ hlu)
      unfold load_landuse
      rw [if_neg hne, Finset.mul_sum]
    rw [e1, lsum_finset_swap]
    apply Finset.sum_congr rfl
    intro s hs
    have e2 : (ctx.landuseTypes.map fun lu =>
        ctx.statCountry c lu * (sector_lu ctx s lu * df_sectors ctx c s h / statSector ctx c s))
        = ctx.landuseTypes.map fun lu =>
            (ctx.statCountry c lu * sector_lu ctx s lu) * (df_sectors ctx c s h / statSector ctx c s) := by
      apply lmap_congr
      intro lu _
      ring
    rw [e2, lsum_map_mul_right ctx.landuseTypes
      (fun lu => ctx.statCountry c lu * sector_lu ctx s lu)
      (df_sectors ctx c s h / statSector ctx c s)]
    have e3 : (ctx.landuseTypes.map fun lu => ctx.statCountry c lu * sector_lu ctx s lu).sum
        = statSector ctx c s := rfl
    rw [e3, mul_comm]
    exact div_mul_cancel₀ _ (hstatS s hs)
  rw [hRES, hLU]
  have hnotin : "RES" ∉ sharedSectors ctx := fun hmem' =>
    hresA (Finset.mem_inter.mp hmem').1
  have hins : ∑ s ∈ insert "RES" (sharedSectors ctx), df_sectors ctx c s h
      = df_sectors ctx c "RES" h + ∑ s ∈ sharedSectors ctx, df_sectors ctx c s h :=
    Finset.sum_insert hnotin
  rw [← hins]
  have hinc : insert "RES" (sharedSectors ctx) = ctx.configSectors := by
    rw [hconf]
    rfl
  rw [hinc]
  exact sum_df_sectors_eq_load ctx c h (fun x hx => hconf ▸ hx) hscale

/-- C1: for every country in the cleaned load time series and every
hour, the disaggregated sectoral loads of `df_sectors` summed over all
configured sectors equal the country's original total hourly load
(exactly, in rational arithmetic), provided every configured sector is
renormalized by the loop of lines 250-252 (that is, each one is the
residential sector or appears in the assumptions table) and the per-hour
scaling sum of line 249 is nonzero. -/
theorem sectoral_sum_eq_total_load (ctx : LoadCtx) (c : String) (h : ℕ)
    (hresA : "RES" ∉ ctx.assumptionCols)
    (hsub : ctx.configSectors ⊆ includedSectors ctx)
    (hscale : df_scaling ctx c h ≠ 0) :
    ∑ s ∈ ctx.configSectors, df_sectors ctx c s h = ctx.loadCountries c h :=
  sum_df_sectors_eq_load ctx c h hsub hscale

/-- Witness for C1 at the concrete example context. -/
theorem sectoral_sum_eq_total_load_witness :
    df_scaling exCtx "A" 0 ≠ 0 ∧
      ∑ s ∈ exCtx.configSectors, df_sectors exCtx "A" s 0 = exCtx.loadCountries "A" 0 := by
  have hscale : df_scaling exCtx "A" 0 ≠ 0 := by
    simp [df_scaling, df_sectors_raw, secShare, exCtx, exShareTable, Finset.sum_insert,
      Finset.sum_singleton] <;> norm_num
  exact ⟨hscale, sectoral_sum_eq_total_load exCtx "A" 0 (by decide) (by decide) hscale⟩

/-- C3: contrary to the specification, the divisions of lines 268 and
271 are not guarded: a country whose zonal-statistics row is all zeros
(population count zero) makes line 268 divide the residential load by
zero, producing an undefined numeric value that propagates downstream
instead of a zero contribution. -/
theorem zero_zonal_count_not_guarded :
    exCtxZero.statCountry "B" "RES" = 0 ∧ load_landuse_fp exCtxZero "B" "RES" 0 = none :=
  ⟨rfl, by decide⟩

/-- C4: each country part's hourly series is its population count times
the country's residential per-unit load plus the sum over land-use
categories of pixel count times per-unit load, and the final series of a
subregion is the sum of the series of all country parts sharing that
subregion identifier, regardless of their country. -/
theorem country_part_series_and_region_sum (ctx : LoadCtx) (statSub : String → String → ℚ)
    (parts : List (String × String × String)) (cp c r : String) (h : ℕ) :
    load_country_part ctx statSub cp c h
        = statSub cp "RES" * load_landuse ctx c "RES" h +
            (ctx.landuseTypes.map fun lu => statSub cp lu * load_landuse ctx c lu h).sum ∧
    load_regions ctx statSub parts r h
        = ((parts.filter fun p => p.2.1 = r).map fun p =>
            load_country_part ctx statSub p.1 p.2.2 h).sum :=
  ⟨rfl, load_regions_eq_filter_sum ctx statSub parts r h⟩

/-- C5: after the normalization of line 197 each included sector's
weights over the land-use categories sum to one (exactly, in rational
arithmetic), provided the sector's raw column sum is nonzero. -/
theorem sector_lu_row_sum_one (ctx : LoadCtx) (s : String) (h0 : luColSum ctx s ≠ 0) :
    (ctx.landuseTypes.map fun lu => sector_lu ctx s lu).sum = 1 := by
  unfold sector_lu
  have e1 : (ctx.landuseTypes.map fun lu => ctx.rawCoef lu s / luColSum ctx s)
      = ctx.landuseTypes.map fun lu => ctx.rawCoef lu s * (luColSum ctx s)⁻¹ :=
    lmap_congr _ _ _ fun lu _ => div_eq_mul_inv _ _
  rw [e1, lsum_map_mul_right ctx.landuseTypes (fun lu => ctx.rawCoef lu s) (luColSum ctx s)⁻¹,
    ← div_eq_mul_inv]
  exact div_self h0

/-- Witness for C5 at the concrete example context. -/
theorem sector_lu_row_sum_one_witness :
    luColSum exCtx "IND" ≠ 0 ∧
      (exCtx.landuseTypes.map fun lu => sector_lu exCtx "IND" lu).sum = 1 := by
  have h0 : luColSum exCtx "IND" ≠ 0 := by
    simp [luColSum, exCtx] <;> norm_num
  exact ⟨h0, sector_lu_row_sum_one exCtx "IND" h0⟩

/-- C6: the file-existence cache of `getOrCompute` is idempotent: after
a first run has computed and written a table, a second run loads the
cached table (whatever recomputation would have produced), leaves the
cache unchanged, and every downstream computation yields the identical
result. -/
theorem cache_short_circuit_idempotent {α β : Type} (v w : α) (downstream : α → β) :
    (getOrCompute (getOrCompute (none : Option α) v).2 w).1 = v ∧
    downstream (getOrCompute (getOrCompute (none : Option α) v).2 w).1
      = downstream (getOrCompute (none : Option α) v).1 ∧
    (getOrCompute (getOrCompute (none : Option α) v).2 w).2
      = (getOrCompute (none : Option α) v).2 :=
  ⟨rfl, rfl, rfl⟩

/-- C7: when the configured sector list is not a subset of the
assumptions sectors together with the always-present residential sector,
the warning condition of line 188 holds and the set the warning names is
exactly the set of truly missing sectors; the computation continues on
the shared subset. -/
theorem missing_sectors_warning (ctx : LoadCtx)
    (hnot : ¬ctx.configSectors ⊆ insert "RES" ctx.assumptionCols) :
    warnsMissing ctx ∧
      missingSectors ctx = ctx.configSectors \ insert "RES" ctx.assumptionCols := by
  constructor
  · intro heq
    apply hnot
    intro x hx
    rw [← heq] at hx
    rcases Finset.mem_insert.mp hx with h1 | h2
    · exact Finset.mem_insert.mpr (Or.inl h1)
    · exact Finset.mem_insert.mpr (Or.inr (Finset.mem_inter.mp h2).1)
  · ext x
    simp only [missingSectors, includedSectors, sharedSectors, Finset.mem_sdiff,
      Finset.mem_insert, Finset.mem_inter]
    tauto

/-- Witness for C7 at the concrete example context with a missing
sector AGR. -/
theorem missing_sectors_warning_witness :
    ¬exCtx7.configSectors ⊆ insert "RES" exCtx7.assumptionCols ∧
      (warnsMissing exCtx7 ∧
        missingSectors exCtx7 = exCtx7.configSectors \ insert "RES" exCtx7.assumptionCols) :=
  ⟨by decide, missing_sectors_warning exCtx7 (by decide)⟩

/-- C8: lines 240-245 use a country's own row of the sector-share table
when the row is present, and substitute the default country's shares
when the lookup fails, without aborting. -/
theorem sector_share_fallback (ctx : LoadCtx) (c s : String) (h : ℕ) :
    (∀ row, ctx.shareTable c = some row →
        df_sectors_raw ctx c s h = ctx.profiles s h * row s) ∧
    (ctx.shareTable c = none →
        df_sectors_raw ctx c s h = ctx.profiles s h * ctx.defaultShares s) := by
  constructor
  · intro row hrow
    unfold df_sectors_raw secShare
    rw [hrow]
  · intro hnone
    unfold df_sectors_raw secShare
    rw [hnone]

/-- Witness for C8: country A is present in the example share table,
country ZZ is absent and falls back to the default shares. -/
theorem sector_share_fallback_witness :
    df_sectors_raw exCtx "A" "IND" 0 = exCtx.profiles "IND" 0 * 3 ∧
      df_sectors_raw exCtx "ZZ" "IND" 0 = exCtx.profiles "IND" 0 * exCtx.defaultShares "IND" := by
  constructor
  · have h := (sector_share_fallback exCtx "A" "IND" 0).1
      (fun s => if s = "IND" then 3 else 1) rfl
    rw [h]
    norm_num
  · exact (sector_share_fallback exCtx "ZZ" "IND" 0).2 rfl

/-- C2: closed-system conservation.  When no country part was dropped
and, for every constituent country, the zonal counts of its parts sum to
the country's zonal counts, the final subregion series of lines 326-343
summed over all subregions equal, at every hour, the sum of the
constituent countries' original total hourly loads (all renormalization
and per-unit denominators being nonzero and every configured sector
being renormalized). -/
theorem subregion_total_conservation (ctx : LoadCtx) (statSub : String → String → ℚ)
    (parts : List (String × String × String)) (h : ℕ)
    (hresA : "RES" ∉ ctx.assumptionCols)
    (hresL : "RES" ∉ ctx.landuseTypes)
    (hconf : ctx.configSectors = includedSectors ctx)
    (hscale : ∀ c ∈ partCountries parts, df_scaling ctx c h ≠ 0)
    (hstatS : ∀ c ∈ partCountries parts, ∀ s ∈ sharedSectors ctx, statSector ctx c s ≠ 0)
    (hstatR : ∀ c ∈ partCountries parts, ctx.statCountry c "RES" ≠ 0)
    (hcoverR : ∀ c ∈ partCountries parts,
        ((parts.filter fun p => p.2.2 = c).map fun p => statSub p.1 "RES").sum
          = ctx.statCountry c "RES")
    (hcoverL : ∀ c ∈ partCountries parts, ∀ lu ∈ ctx.landuseTypes,
        ((parts.filter fun p => p.2.2 = c).map fun p => statSub p.1 lu).sum
          = ctx.statCountry c lu) :
    ((partRegions parts).map fun r => load_regions ctx statSub parts r h).sum
      = ((partCountries parts).map fun c => ctx.loadCountries c h).sum := by
  unfold partRegions partCountries
  have h1 : ((parts.map fun p => p.2.1).dedup.map fun r => load_regions ctx statSub parts r h)
      = (parts.map fun p => p.2.1).dedup.map fun r =>
          ((parts.filter fun p => p.2.1 = r).map fun p =>
            load_country_part ctx statSub p.1 p.2.2 h).sum :=
    lmap_congr _ _ _ fun r _ => load_regions_eq_filter_sum ctx statSub parts r h
  rw [h1]
  rw [lsum_dedup_fibers parts (fun p => p.2.1)
    (fun p => load_country_part ctx statSub p.1 p.2.2 h)]
  rw [← lsum_dedup_fibers parts (fun p => p.2.2)
    (fun p => load_country_part ctx statSub p.1 p.2.2 h)]
  have h2 : ((parts.map fun p => p.2.2).dedup.map fun c =>
      ((parts.filter fun p => p.2.2 = c).map fun p =>
        load_country_part ctx statSub p.1 p.2.2 h).sum)
      = (parts.map fun p => p.2.2).dedup.map fun c => ctx.loadCountries c h := by
    apply lmap_congr
    intro c hc
    exact country_part_sum_eq_load ctx statSub parts c h hresA hresL hconf
      (hscale c hc) (hstatS c hc) (hstatR c hc) (hcoverR c hc) (hcoverL c hc)
  rw [h2]

/-- Witness for C2: one country part covering all of country A inside
subregion R1, with the zonal counts of the part equal to those of the
country. -/
theorem subregion_total_conservation_witness :
    df_scaling exCtx "A" 0 ≠ 0 ∧
      ((partRegions exParts).map fun r => load_regions exCtx exStatC exParts r 0).sum
        = ((partCountries exParts).map fun c => exCtx.loadCountries c 0).sum := by
  have hA : partCountries exParts = ["A"] := by decide
  have hshared : sharedSectors exCtx = {"IND"} := by decide
  have hscale0 : df_scaling exCtx "A" 0 ≠ 0 := by
    simp [df_scaling, df_sectors_raw, secShare, exCtx, exShareTable, Finset.sum_insert,
      Finset.sum_singleton] <;> norm_num
  have hstatS0 : statSector exCtx "A" "IND" ≠ 0 := by
    simp [statSector, sector_lu, luColSum, exCtx, exStatC] <;> norm_num
  refine ⟨hscale0, subregion_total_conservation exCtx exStatC exParts 0 (by decide) (by decide)
    (by decide) ?_ ?_ ?_ ?_ ?_⟩
  · intro c hc
    rw [hA] at hc
    rw [List.mem_singleton.mp hc]
    exact hscale0
  · intro c hc
    rw [hA] at hc
    rw [List.mem_singleton.mp hc]
    intro s hs
    rw [hshared] at hs
    rw [Finset.mem_singleton.mp hs]
    exact hstatS0
  · intro c hc
    rw [hA] at hc
    rw [List.mem_singleton.mp hc]
    simp [exCtx, exStatC] <;> norm_num
  · intro c hc
    rw [hA] at hc
    rw [List.mem_singleton.mp hc]
    simp [exParts, exStatC, exCtx] <;> norm_num
  · intro c hc
    rw [hA] at hc
    rw [List.mem_singleton.mp hc]
    intro lu hlu
    have hLT : exCtx.landuseTypes = ["L1"] := rfl
    rw [hLT] at hlu
    rw [List.mem_singleton.mp hlu]
    simp [exParts, exStatC, exCtx] <;> norm_num

/-- Supporting lemma: when every identifier is well formed, the loop of
lines 313-316 succeeds (the drops are non-fatal), keeps exactly the
country parts whose country is known, and drops every part whose
country is unknown, so dropped parts contribute to no subregion series;
every surviving row's country is known. -/
theorem unknown_country_parts_dropped (known : Finset String) (ids : List String)
    (hwf : ∀ i ∈ ids, (pySplit i).length = 2) :
    parseParts known ids = Except.ok (ids.filterMap (keepRow known)) ∧
    ∀ p ∈ ids.filterMap (keepRow known), p.2.2 ∈ known := by
  constructor
  · induction ids with
    | nil => rfl
    | cons j rest ih =>
      have hj : (pySplit j).length = 2 := hwf j (List.mem_cons_self j rest)
      have hrest : ∀ i ∈ rest, (pySplit i).length = 2 :=
        fun i hi => hwf i (List.mem_cons_of_mem j hi)
      obtain ⟨r, c, hrc⟩ : ∃ r c, pySplit j = [r, c] := by
        cases h1 : pySplit j with
        | nil => rw [h1] at hj; simp at hj
        | cons a t =>
          cases t with
          | nil => rw [h1] at hj; simp at hj
          | cons b t2 =>
            cases t2 with
            | nil => exact ⟨a, b, rfl⟩
            | cons x t3 => rw [h1] at hj; simp at hj
      simp only [parseParts, hrc, ih hrest, List.filterMap_cons, keepRow]
      by_cases hc : c ∈ known
      · simp [hc]
      · simp [hc]
  · intro p hp
    rcases List.mem_filterMap.mp hp with ⟨i, _, hkeep⟩
    unfold keepRow at hkeep
    split at hkeep
    · rename_i r c
      split at hkeep
      · rename_i hc
        injection hkeep with hep
        rw [← hep]
        exact hc
      · exact absurd hkeep (by simp)
    · exact absurd hkeep (by simp)

/-- Concrete instance of the supporting lemma: of the two example
identifiers the part of the unknown country X is dropped and the part
of the known country A is kept, without an error. -/
theorem unknown_country_parts_dropped_witness :
    parseParts exKnown exIds = Except.ok [("R1_A", "R1", "A")] := by
  have h := unknown_country_parts_dropped exKnown exIds (by decide)
  rw [h.1]
  rfl

/-- C9: contrary to the claim, the drop of a country part whose country
is unknown is silent.  At the concrete input the part of the unknown
country X is dropped (data loss occurs) and the stage completes
non-fatally, yet the list of warning or log messages emitted by the
loop of lines 313-316 is empty: the data loss is not logged. -/
theorem unknown_country_drop_unlogged :
    parsePartsLog exKnown exIds = Except.ok ([("R1_A", "R1", "A")], []) := rfl

/-- C10: completion of the country-part attribute assignment of lines
313-316 implies that every country-part identifier splits on the
underscore into exactly two tokens; an identifier with any other number
of tokens aborts the stage. -/
theorem parse_ok_two_tokens (known : Finset String) (ids : List String)
    (l : List (String × String × String))
    (hok : parseParts known ids = Except.ok l) :
    ∀ i ∈ ids, (pySplit i).length = 2 := by
  induction ids generalizing l with
  | nil =>
    intro i hi
    simp at hi
  | cons j rest ih =>
    simp only [parseParts] at hok
    split at hok
    · rename_i r c hsp
      split at hok
      · rename_i l' hrec
        intro i hi
        rcases List.mem_cons.mp hi with hj | hmem
        · rw [hj, hsp]
          rfl
        · exact ih l' hrec i hmem
      · rename_i e herr
        exact absurd hok (by simp)
    · exact absurd hok (by simp)

/-- Witness for C10: the parse of the example identifiers succeeds, so
each of them has exactly two tokens. -/
theorem parse_ok_two_tokens_witness : (pySplit "R1_A").length = 2 := by
  have h := parse_ok_two_tokens exKnown exIds [("R1_A", "R1", "A")] rfl
  exact h "R1_A" (by simp [exIds])
